import Mathlib

/-!
Verification development for the lazykamal session engine.

This file shallowly embeds the core data model and operations of the
repository (discovery/grouping of Docker containers into applications,
the kamal/ssh command executors, the capped log buffer, the streaming
supervisor's cancellation, the confirmation overlay, and the session
state machines) as executable Lean definitions, and proves the spec's
claims about them.

Conventions used throughout:
* Go strings are Lean `String`s; Go `[]T` is `List T`; Go `map[string]string`
  is an association list `List (String × String)` with overwrite-on-insert
  semantics.
* Go `int` indices that the code can drive below zero are `Int`; indices that
  stay non-negative are `Nat`.
* Ambient effects are made explicit: the render-time clock reading becomes a
  `ts : String` argument, process outcomes of `exec.Command` become an
  explicit argument, and a launched goroutine or stored callback becomes an
  emitted event value.
* A Go channel of type `chan struct{}` is modelled as `Option Bool`:
  `none` is a nil channel reference, `some true` an open channel,
  `some false` a closed one.  Closing a nil or already-closed channel
  is a Go runtime panic, modelled as `none : Option _` results.
-/

namespace LazyKamal


/-! ## String primitives

Go's `strings.Split`, `strings.Join` and `strings.TrimSpace` are modelled by
structurally recursive functions over `String.data` so that every definition
in this file evaluates inside the kernel (`String.splitOn` in core Lean is
well-founded recursion and does not reduce definitionally).  The separators
used by the program (`"-"`, `","`, `"="`, `"\n"`) are all single characters,
for which Go's substring split coincides with a character split. -/

/-- `strings.Split s sep` for a one-character separator `sep`. -/
def splitOnSep (sep : Char) : List Char → List (List Char)
  | [] => [[]]
  | c :: cs =>
    let rest := splitOnSep sep cs
    if c = sep then [] :: rest
    else
      match rest with
      | [] => [[c]]
      | r :: rs => (c :: r) :: rs

/-- `strings.Split` on a one-character separator, on `String`s. -/
def splitString (s : String) (sep : Char) : List String :=
  (splitOnSep sep s.data).map (fun l => ⟨l⟩)

/-- `strings.Join parts sep`. -/
def joinWith (sep : String) : List String → String
  | [] => ""
  | [x] => x
  | x :: y :: xs => x ++ sep ++ joinWith sep (y :: xs)

/-- `strings.TrimSpace`: drop leading and trailing whitespace. -/
def trimString (s : String) : String :=
  ⟨((s.data.dropWhile Char.isWhitespace).reverse.dropWhile Char.isWhitespace).reverse⟩

/-! ## Discovery data model (pkg/docker/discover.go) -/

/-- `Container` mirrors `docker.Container`: one parsed `docker ps ` record.
The `Labels` map is an association list; `getLabel` reproduces Go's
`m[key]` lookup returning `""` for a missing key. -/
structure Container where
  id : String := ""
  name : String := ""
  image : String := ""
  status : String := ""
  state : String := ""
  labels : List (String × String) := []
  created : String := ""
deriving DecidableEq, Repr

/-- `Accessory` mirrors `docker.Accessory`. -/
structure Accessory where
  name : String
  containers : List Container
deriving DecidableEq, Repr

/-- `App` mirrors `docker.App`. -/
structure App where
  service : String
  destination : String
  containers : List Container := []
  accessories : List Accessory := []
  proxyStatus : String := ""
deriving DecidableEq, Repr

/-- Go map read `labels[key]`: the zero value `""` when the key is absent. -/
def getLabel (labels : List (String × String)) (key : String) : String :=
  match labels.lookup key with
  | some v => v
  | none => ""

/-- The countdown loop of `detectBaseApp` (discover.go lines 227-236):
`for i := len(parts) - 1; i > 0; i--` trying the prefix `parts[:i]`
joined by `"-"` against `allServices`, returning base and accessory
suffix on the first hit. -/
def detectBaseAppAux (service : String) (parts allServices : List String) :
    Nat → String × String
  | 0 => (service, "")
  | i + 1 =>
    let potentialBase := joinWith "-" (parts.take (i + 1))
    if allServices.contains potentialBase then
      (potentialBase, joinWith "-" (parts.drop (i + 1)))
    else
      detectBaseAppAux service parts allServices i

/-- `detectBaseApp` (discover.go lines 219-240): split the service name on
`"-"` and try progressively shorter proper prefixes; the first prefix found
in `allServices` is the base app, the rest the accessory name; otherwise the
service itself is a main app.  The Go `map[string]bool` membership test is a
list membership test here (`parseLabels` never stores an empty service
name, and duplicates do not change membership). -/
def detectBaseApp (service : String) (allServices : List String) : String × String :=
  let parts := splitString service '-'
  detectBaseAppAux service parts allServices (parts.length - 1)

/-! ## Grouping (discover.go `groupContainers`)

`groupContainers` keys apps by `(baseApp, destination)` in a nested Go map
and flattens the map at the end.  Go map iteration order is unspecified, so
the model materialises the apps in first-insertion order; the claims proved
about grouping are per-app membership properties, which do not depend on the
flattening order. -/

/-- First pass of `groupContainers` (lines 133-139): collect every non-empty
`service` label.  Go stores them in a `map[string]bool`; a list preserves
exactly the same membership. -/
def allServicesOf (containers : List Container) : List String :=
  containers.filterMap (fun c =>
    let service := getLabel c.labels "service"
    if service = "" then none else some service)

/-- The accessory-merging loop of `groupContainers` (lines 182-195): append
the container to the first accessory whose name matches `role`, or append a
new accessory at the end. -/
def addAccessory : List Accessory → String → Container → List Accessory
  | [], role, c => [{ name := role, containers := [c] }]
  | acc :: rest, role, c =>
    if acc.name = role then
      { acc with containers := acc.containers ++ [c] } :: rest
    else
      acc :: addAccessory rest role c

/-- Role dispatch of `groupContainers` (lines 178-196): an empty or `web`
role appends to the app's primary containers, anything else to the
accessory of that name. -/
def addToApp (app : App) (role : String) (c : Container) : App :=
  if role = "" ∨ role = "web" then
    { app with containers := app.containers ++ [c] }
  else
    { app with accessories := addAccessory app.accessories role c }

/-- The `appMap[baseApp][destination]` lookup-or-create of lines 159-169,
on the insertion-ordered app list. -/
def insertGrouped : List App → String → String → String → Container → List App
  | [], baseApp, destination, role, c =>
    [addToApp { service := baseApp, destination := destination } role c]
  | app :: rest, baseApp, destination, role, c =>
    if app.service = baseApp ∧ app.destination = destination then
      addToApp app role c :: rest
    else
      app :: insertGrouped rest baseApp destination role c

/-- The destination label with its `"production"` fallback (lines 150-153). -/
def effectiveDestination (c : Container) : String :=
  let destination := getLabel c.labels "destination"
  if destination = "" then "production" else destination

/-- The body of the second loop of `groupContainers` (lines 144-197) for one
container. -/
def groupStep (allServices : List String) (apps : List App) (c : Container) :
    List App :=
  let service := getLabel c.labels "service"
  if service = "" then apps
  else
    let destination := effectiveDestination c
    let (baseApp, accessoryType) := detectBaseApp service allServices
    let role :=
      let role := getLabel c.labels "role"
      if role = "" then accessoryType else role
    insertGrouped apps baseApp destination role c

/-- `groupContainers` (discover.go lines 131-208). -/
def groupContainers (containers : List Container) : List App :=
  let allServices := allServicesOf containers
  containers.foldl (groupStep allServices) []

/-- All process records held by an app: its primary containers and the
containers of each of its accessories. -/
def appRecords (app : App) : List Container :=
  app.containers ++ (app.accessories.map (fun acc => acc.containers)).flatten

/-! ## C2: the grouping label invariant -/

/-- The per-record invariant actually maintained by `groupContainers`:
the record carries a non-empty service label whose detected base is the
app's service name, and its destination label (defaulted to
`"production"`) is the app's destination. -/
def recordMatchesApp (allServices : List String) (app : App) (c : Container) : Prop :=
  getLabel c.labels "service" ≠ "" ∧
  (detectBaseApp (getLabel c.labels "service") allServices).1 = app.service ∧
  effectiveDestination c = app.destination

/-- Concrete input refuting C2 as stated: a primary app container... -/
def cexWeb : Container := { labels := [("service", "myapp")] }

/-- ...and a container whose `service` label is `myapp-web` and that carries
no `role` label, so the ownership heuristic derives accessory type `web` and
the grouping files it as a *primary* record of the app `myapp`. -/
def cexAccessoryWeb : Container := { labels := [("service", "myapp-web")] }

/-! ## Line parsing (discover.go `parseContainers`, `parseLabels`)

`parseContainers` decodes each `docker ps` output line with
`json.Unmarshal`.  The JSON decoder is an external collaborator, so it is a
parameter `decode : String → Option RawContainer` of the model: `none`
models a line on which `json.Unmarshal` returns an error. -/

/-- The anonymous struct that `parseContainers` decodes one JSON line
into (discover.go lines 81-89). -/
structure RawContainer where
  ID : String
  Name : String
  Image : String
  Status : String
  State : String
  Labels : String
  Created : String
deriving DecidableEq, Repr

/-- Go map assignment `labels[key] = value`: overwrite an existing key,
otherwise append. -/
def insertLabel (labels : List (String × String)) (key value : String) :
    List (String × String) :=
  if labels.any (fun p => p.1 == key) then
    labels.map (fun p => if p.1 == key then (key, value) else p)
  else
    labels ++ [(key, value)]

/-- `parseLabels` (discover.go lines 112-126): split the label string on
`","`; for each pair with a `"="` at a positive index, store the trimmed
key and value.  `strings.Index(pair, "=") > 0` is the split producing a
non-empty part before the first `"="`; the value is everything after it,
later `"="`s included. -/
def parseLabels (labelsStr : String) : List (String × String) :=
  (splitString labelsStr ',').foldl (fun labels pair =>
    match splitString pair '=' with
    | [] => labels
    | [_] => labels
    | key :: rest =>
      if key = "" then labels
      else insertLabel labels (trimString key) (trimString (joinWith "=" rest))) []

/-- Conversion of one decoded line into a `Container`
(discover.go lines 95-103). -/
def mkContainer (c : RawContainer) : Container :=
  { id := c.ID, name := c.Name, image := c.Image, status := c.Status,
    state := c.State, created := c.Created, labels := parseLabels c.Labels }

/-- `parseContainers` (discover.go lines 72-109): trim the output, split it
into lines, skip empty lines, decode each remaining line independently and
drop the ones that fail to decode. -/
def parseContainers (decode : String → Option RawContainer) (output : String) :
    List Container :=
  let lines := splitString (trimString output) '\n'
  lines.foldl (fun containers line =>
    if line = "" then containers
    else
      match decode line with
      | none => containers
      | some c => containers ++ [mkContainer c]) []

/-! ## C9: per-line parsing independence -/

/-- The per-line result of `parseContainers`: `none` when the line is
empty or fails to decode. -/
def parseLine (decode : String → Option RawContainer) (line : String) :
    Option Container :=
  if line = "" then none else (decode line).map mkContainer

/-! ## Kamal runner (pkg/kamal/runner.go) and ssh executor (pkg/ssh/ssh.go)

The outcome of `exec.Cmd.Run` is made explicit as `Option CmdError`:
`none` means the process ran and exited 0; `some (.exitError code)` is a
`*exec.ExitError` (the process ran and exited with the given non-zero
status — for the `ssh` binary this is how a non-zero *remote* exit status
comes back); `some (.launchError msg)` is any other error (the command
could not be started or another transport failure occurred). -/

/-- The two shapes of `error` that `exec.Cmd.Run` can produce. -/
inductive CmdError where
  | exitError (code : Int)
  | launchError (msg : String)
deriving DecidableEq, Repr

/-- `kamal.RunOptions` with Go zero values as field defaults. -/
structure RunOptions where
  Cwd : String := ""
  ConfigFile : String := ""
  Destination : String := ""
  Primary : Bool := false
  Hosts : String := ""
  Roles : String := ""
  Version : String := ""
  SkipHooks : Bool := false
  Verbose : Bool := false
  Quiet : Bool := false
deriving DecidableEq, Repr

/-- `kamal.Result`. -/
structure Result where
  Stdout : String
  Stderr : String
  ExitCode : Int
deriving DecidableEq, Repr

/-- One `if cond { args = append(args, block...) }` step of
`buildGlobalArgs`. -/
def appendIf (cond : Bool) (args block : List String) : List String :=
  if cond then args ++ block else args

/-- `buildGlobalArgs` (runner.go lines 40-70). -/
def buildGlobalArgs (opts : RunOptions) : List String :=
  let args : List String := []
  let args := appendIf (opts.ConfigFile != "") args ["--config-file", opts.ConfigFile]
  let args := appendIf (opts.Destination != "" && opts.Destination != "production")
    args ["--destination", opts.Destination]
  let args := appendIf opts.Primary args ["--primary"]
  let args := appendIf (opts.Hosts != "") args ["--hosts", opts.Hosts]
  let args := appendIf (opts.Roles != "") args ["--roles", opts.Roles]
  let args := appendIf (opts.Version != "") args ["--version", opts.Version]
  let args := appendIf opts.SkipHooks args ["--skip-hooks"]
  let args := appendIf opts.Verbose args ["--verbose"]
  let args := appendIf opts.Quiet args ["--quiet"]
  args

/-- `RunKamal` (runner.go lines 73-93), given the captured output buffers
and the outcome of `cmd.Run()`: a `*exec.ExitError` is converted into a
successful `Result` carrying its exit code; any other error is returned as
the error; exit 0 yields exit code 0. -/
def RunKamal (stdoutBuf stderrBuf : String) (runErr : Option CmdError) :
    Except String Result :=
  match runErr with
  | some (CmdError.exitError code) =>
    Except.ok { Stdout := stdoutBuf, Stderr := stderrBuf, ExitCode := code }
  | some (CmdError.launchError msg) => Except.error msg
  | none => Except.ok { Stdout := stdoutBuf, Stderr := stderrBuf, ExitCode := 0 }

/-- The error text of a Go `error` as rendered by `fmt.Errorf("%w ...")`:
a `*exec.ExitError` prints `exit status N`. -/
def cmdErrorText : CmdError → String
  | CmdError.exitError code => "exit status " ++ toString code
  | CmdError.launchError msg => msg

/-- `ssh.Client.Run` (ssh.go lines 44-63), given the captured output
buffers and the outcome of `cmd.Run()`: *any* non-nil error — including a
`*exec.ExitError`, which is how `ssh` reports a non-zero remote exit
status — is returned as an error (wrapping stderr when non-empty); only a
nil error yields the stdout string.  The exit code is not part of the
result type at all. -/
def ClientRun (stdoutBuf stderrBuf : String) (runErr : Option CmdError) :
    Except String String :=
  match runErr with
  | some e =>
    if stderrBuf != "" then
      Except.error (cmdErrorText e ++ ": " ++ stderrBuf)
    else
      Except.error (cmdErrorText e)
  | none => Except.ok stdoutBuf

/-- `kamal.DeployDestination` (the `Config` YAML map is not consulted by
`RunOpts` and is omitted). -/
structure DeployDestination where
  Name : String
  ConfigPath : String
  Service : String
deriving DecidableEq, Repr

/-- `RunOpts` (runner.go lines 145-154). -/
def RunOpts (cwd : String) (dest : Option DeployDestination) : RunOptions :=
  let o : RunOptions := { Cwd := cwd }
  match dest with
  | none => o
  | some d =>
    let o := { o with ConfigFile := d.ConfigPath }
    if d.Name != "production" then { o with Destination := d.Name } else o

/-! ## Log buffer (GUI.appendLog in the root gui file, ServerGUI.appendLog
in pkg/gui/server_mode.go)

Both append loops stamp each line with `timestampedLine` (the server one
also sanitizes the line first), append, and then trim the slice to its cap
in one step.  The per-line rendering (timestamp prefix, sanitizing) is the
`render` parameter below; the render-time clock reading is an explicit
`ts` argument of `timestampedLine`. -/

/-- ANSI reset, from the style constants. -/
def colorReset : String := "\x1b[0m"

/-- ANSI dim. -/
def colorDim : String := "\x1b[2m"

/-- `colorize` from the style helpers. -/
def colorize (text color : String) : String := color ++ text ++ colorReset

/-- `dim` from the style helpers. -/
def dim (text : String) : String := colorize text colorDim

/-- `timestampedLine`, with the `time.Now()` clock reading made an explicit
`ts` argument: a dimmed timestamp prefix followed by the line. -/
def timestampedLine (ts line : String) : String := dim ts ++ " " ++ line

/-- `logBufLive`: the cap of the root GUI's log buffer. -/
def logBufLive : Nat := 3000

/-- The cap of `ServerGUI.appendLog` (the literal `1000` in
server_mode.go). -/
def serverLogCap : Nat := 1000

/-- One `appendLog` call on a buffer: render and append each line, then
trim to the most recent `cap` entries when the cap is exceeded. -/
def appendLogStep (cap : Nat) (render : String → String)
    (buf lines : List String) : List String :=
  let b := buf ++ lines.map render
  if cap < b.length then b.drop (b.length - cap) else b

/-- The most recent `cap` entries of a list (all of it when shorter). -/
def lastN (cap : Nat) (l : List String) : List String := l.drop (l.length - cap)

/-! ## Terminal style helpers (part of the gui package)

`statusLine` and `timestampedLine` are the pure string formatters used by
the loggers below. -/

/-- ANSI red. -/
def colorRed : String := "\x1b[31m"

/-- ANSI green. -/
def colorGreen : String := "\x1b[32m"

/-- ANSI yellow. -/
def colorYellow : String := "\x1b[33m"

/-- ANSI blue. -/
def colorBlue : String := "\x1b[34m"

/-- `green` style helper. -/
def green (text : String) : String := colorize text colorGreen

/-- `red` style helper. -/
def red (text : String) : String := colorize text colorRed

/-- `yellow` style helper. -/
def yellow (text : String) : String := colorize text colorYellow

/-- `blue` style helper. -/
def blue (text : String) : String := colorize text colorBlue

/-- `statusLine`: a colored icon prefix chosen by the status keyword. -/
def statusLine (status message : String) : String :=
  if status = "success" then green "✓" ++ " " ++ message
  else if status = "error" then red "✗" ++ " " ++ message
  else if status = "running" then yellow "●" ++ " " ++ message
  else if status = "warning" then yellow "⚠" ++ " " ++ message
  else if status = "info" then blue "ℹ" ++ " " ++ message
  else message

/-! ## Channels and cancellation

`chan struct{}` is modelled as `Option Bool` (see the header).  `closeChan`
is Go's `close`: defined only on an open channel; closing a nil or closed
channel panics, yielding `none`. -/

/-- Go `close(ch)`: succeeds only on an open channel. -/
def closeChan : Option Bool → Option (Option Bool)
  | some true => some (some false)
  | _ => none

/-! ## Confirmation overlay state (pkg/gui/confirm.go, server_confirm.go)

`confirmState` stores two continuation function pointers.  The model keeps
only their presence (`hasOnYes`, `hasOnNo`); an actual invocation of a
continuation is reported as an emitted `ConfirmEvent` rather than applied
to the state, since the continuations' own effects (such as `runCommand`)
are separate operations. -/

/-- `confirmState`: `selected = 0` is Yes, `selected = 1` is No. -/
structure ConfirmSt where
  title : String
  message : String
  hasOnYes : Bool
  hasOnNo : Bool
  selected : Nat
deriving DecidableEq, Repr

/-- Which stored continuation a confirm resolution invoked. -/
inductive ConfirmEvent where
  | invokedYes
  | invokedNo
deriving DecidableEq, Repr

/-! ## Root GUI session state machine (the root gui file)

`Screen` is a Go `int` enum; the model keeps it as `Nat` with one named
constant per `iota` value, because `keyEnter` computes
`ScreenDeploy + Screen(gui.submenuIdx)` arithmetically. -/

/-- `ScreenApps` (iota 0). -/
def ScreenApps : Nat := 0

/-- `ScreenMainMenu`. -/
def ScreenMainMenu : Nat := 1

/-- `ScreenDeploy`. -/
def ScreenDeploy : Nat := 2

/-- `ScreenApp`. -/
def ScreenApp : Nat := 3

/-- `ScreenServer`. -/
def ScreenServer : Nat := 4

/-- `ScreenAccessory`. -/
def ScreenAccessory : Nat := 5

/-- `ScreenProxy`. -/
def ScreenProxy : Nat := 6

/-- `ScreenOther`. -/
def ScreenOther : Nat := 7

/-- `ScreenConfig`. -/
def ScreenConfig : Nat := 8

/-- `ScreenEditor`. -/
def ScreenEditor : Nat := 9

/-- `ScreenHelp`. -/
def ScreenHelp : Nat := 10

/-- `ScreenConfirm`. -/
def ScreenConfirm : Nat := 11

/-- The screen-dependent leaf dispatch of `GUI.keyEnter`: which `exec*`
handler the key handler calls.  The handlers' own behavior (building and
running a kamal command) is a separate operation outside this state
machine step. -/
inductive GUIDispatch where
  | config
  | deploy
  | app
  | server
  | accessory
  | proxy
  | other
deriving DecidableEq, Repr

/-- The fields of the root `GUI` struct that its key handlers,
confirmation overlay and live-log supervisor read and write. -/
structure GUIState where
  screen : Nat := 0
  prevScreen : Nat := 0
  submenuIdx : Nat := 0
  running : Bool := false
  confirm : Option ConfirmSt := none
  liveLogsActive : Bool := false
  liveLogsStop : Option Bool := none
deriving DecidableEq, Repr

namespace GUI

/-- `GUI.showConfirm` (confirm.go lines 20-29): store the continuations
with the selection defaulted to No (`1`) and switch to the confirm
screen. -/
def showConfirm (s : GUIState) (title message : String)
    (hasOnYes hasOnNo : Bool) : GUIState :=
  { s with
    confirm := some { title := title, message := message,
                      hasOnYes := hasOnYes, hasOnNo := hasOnNo,
                      selected := 1 },
    screen := ScreenConfirm }

/-- `GUI.closeConfirm` (confirm.go lines 112-117): drop the overlay and
return to the previous screen (the view deletion and focus change are
rendering effects). -/
def closeConfirm (s : GUIState) : GUIState :=
  { s with confirm := none, screen := s.prevScreen }

/-- `GUI.confirmLeft` (confirm.go lines 86-90). -/
def confirmLeft (s : GUIState) : GUIState :=
  match s.confirm with
  | some c =>
    if 0 < c.selected then
      { s with confirm := some { c with selected := c.selected - 1 } }
    else s
  | none => s

/-- `GUI.confirmRight` (confirm.go lines 92-96). -/
def confirmRight (s : GUIState) : GUIState :=
  match s.confirm with
  | some c =>
    if c.selected < 1 then
      { s with confirm := some { c with selected := c.selected + 1 } }
    else s
  | none => s

/-- `GUI.confirmEnter` (confirm.go lines 98-110): invoke the continuation
matching the selection when it is present, then close the overlay. -/
def confirmEnter (s : GUIState) : GUIState × Option ConfirmEvent :=
  match s.confirm with
  | none => (s, none)
  | some c =>
    let ev :=
      if c.selected == 0 && c.hasOnYes then some ConfirmEvent.invokedYes
      else if c.selected == 1 && c.hasOnNo then some ConfirmEvent.invokedNo
      else none
    (closeConfirm s, ev)

/-- `GUI.runWithConfirm` (root gui file): remember the current screen as
the previous one and open a confirm overlay whose accept continuation runs
the command (present) and whose decline continuation is nil (absent). -/
def runWithConfirm (s : GUIState) (name message : String) : GUIState :=
  showConfirm { s with prevScreen := s.screen } ("Confirm " ++ name) message
    true false

/-- `GUI.stopLiveLogs` (root gui file): a no-op unless live logs are
active; otherwise close the stop channel and clear the active flag (the
channel reference is kept). -/
def stopLiveLogs (s : GUIState) : Option GUIState :=
  if !s.liveLogsActive then some s
  else
    match closeChan s.liveLogsStop with
    | some ch => some { s with liveLogsStop := ch, liveLogsActive := false }
    | none => none

/-- `GUI.keyEnter` (root gui file): ignore the key while a command is
running; otherwise either navigate (apps list, main menu) or dispatch the
current screen's `exec*` handler. -/
def keyEnter (s : GUIState) : GUIState × Option GUIDispatch :=
  if s.running then (s, none)
  else if s.screen = ScreenApps then
    ({ s with screen := ScreenMainMenu, submenuIdx := 0 }, none)
  else if s.screen = ScreenMainMenu then
    ({ s with screen := ScreenDeploy + s.submenuIdx, submenuIdx := 0 }, none)
  else if s.screen = ScreenConfig then (s, some GUIDispatch.config)
  else if s.screen = ScreenDeploy then (s, some GUIDispatch.deploy)
  else if s.screen = ScreenApp then (s, some GUIDispatch.app)
  else if s.screen = ScreenServer then (s, some GUIDispatch.server)
  else if s.screen = ScreenAccessory then (s, some GUIDispatch.accessory)
  else if s.screen = ScreenProxy then (s, some GUIDispatch.proxy)
  else if s.screen = ScreenOther then (s, some GUIDispatch.other)
  else (s, none)

end GUI



/-! ## Server-mode session state machine (pkg/gui/server_mode.go)

The model covers the key-enter dispatch tree, the confirmation overlay,
the log-stream supervisor and the refresh/selection-clamping logic.  A
goroutine launched by a handler becomes an emitted `ServerEffect`; the
handler body that runs inside that goroutine is a separate concurrent
operation outside the synchronous state transition modelled here.  Log
lines appended synchronously by handlers are recorded verbatim in
`logLines` (the timestamp stamping, sanitizing and capping applied by
`ServerGUI.appendLog` are the log-buffer model `appendLogStep` above and
are independent of the state-machine claims). -/

/-- `ServerScreen` (second enum, server_mode.go lines 1240-1248),
`iota` values as `Nat` constants. -/
def ServerScreenApps : Nat := 0

/-- `ServerScreenAppMenu`. -/
def ServerScreenAppMenu : Nat := 1

/-- `ServerScreenContainerSelect`. -/
def ServerScreenContainerSelect : Nat := 2

/-- `ServerScreenActionsMenu`. -/
def ServerScreenActionsMenu : Nat := 3

/-- `ServerScreenProxyMenu`. -/
def ServerScreenProxyMenu : Nat := 4

/-- `ServerScreenHelp`. -/
def ServerScreenHelp : Nat := 5

/-- `ServerScreenConfirm`. -/
def ServerScreenConfirm : Nat := 6

/-- `ContainerInfo`: a container with its display role. -/
structure ContainerInfo where
  container : Container
  role : String
deriving DecidableEq, Repr

/-- A goroutine launched by a key action: a blocking worker with the
command label it runs under, or a log-stream worker with its target. -/
inductive ServerEffect where
  | worker (label : String)
  | streamWorker (target : String)
deriving DecidableEq, Repr

/-- The fields of the `ServerGUI` struct that the modelled handlers read
and write.  `selectedContainer` is a Go `int` that the clamping code
compares against `len(...)-1`, so it is an `Int` here. -/
structure ServerState where
  screen : Nat := 0
  prevScreen : Nat := 0
  selectedApp : Nat := 0
  selectedItem : Nat := 0
  selectedContainer : Int := 0
  apps : List App := []
  allContainers : List ContainerInfo := []
  running : Bool := false
  runningCmd : String := ""
  streamingLogs : Bool := false
  streamingContainer : String := ""
  liveLogsStop : Option Bool := none
  confirm : Option ConfirmSt := none
  logLines : List String := []
deriving DecidableEq, Repr

namespace ServerGUI

/-- Append one rendered log line (see the section header). -/
def logLine (s : ServerState) (line : String) : ServerState :=
  { s with logLines := s.logLines ++ [line] }

/-- `ServerGUI.logInfo`. -/
def logInfo (s : ServerState) (msg : String) : ServerState :=
  logLine s (statusLine "info" msg)

/-- `ServerGUI.logError`. -/
def logError (s : ServerState) (msg : String) : ServerState :=
  logLine s (statusLine "error" msg)

/-- `ServerGUI.logSuccess`. -/
def logSuccess (s : ServerState) (msg : String) : ServerState :=
  logLine s (statusLine "success" msg)

/-- The `cmdMu`-guarded start-of-command block shared by the action
handlers: set the running flag and the command label (the start timestamp
is a wall-clock reading, not modelled). -/
def startRunning (s : ServerState) (cmdName : String) : ServerState :=
  { s with running := true, runningCmd := cmdName }

/-- `ServerGUI.showConfirm` (server_confirm.go lines 11-21): store the
continuations with the selection defaulted to No, remember the current
screen and switch to the confirm screen. -/
def showConfirm (s : ServerState) (title message : String)
    (hasOnYes hasOnNo : Bool) : ServerState :=
  { s with
    confirm := some { title := title, message := message,
                      hasOnYes := hasOnYes, hasOnNo := hasOnNo,
                      selected := 1 },
    prevScreen := s.screen,
    screen := ServerScreenConfirm }

/-- `ServerGUI.stopLogStream` (server_mode.go lines 2439-2447): when a
stream is active and its stop channel is non-nil, close the channel, nil
the reference and clear the streaming flag; otherwise do nothing.
`none` is a Go panic (double close), which the guard prevents in every
reachable state. -/
def stopLogStream (s : ServerState) : Option ServerState :=
  if s.streamingLogs && s.liveLogsStop.isSome then
    match closeChan s.liveLogsStop with
    | some _ => some { s with liveLogsStop := none, streamingLogs := false }
    | none => none
  else some s

/-- `ServerGUI.buildContainerList` (server_mode.go lines 1659-1684): when
the selected app index is in range, rebuild the flattened container list
(web containers first, then each accessory's); otherwise leave the list
as it is. -/
def buildContainerList (s : ServerState) : ServerState :=
  match s.apps.get? s.selectedApp with
  | none => s
  | some app =>
    { s with allContainers :=
        app.containers.map (fun c => { container := c, role := "web" }) ++
        (app.accessories.map (fun acc =>
          acc.containers.map (fun c =>
            ({ container := c, role := acc.name } : ContainerInfo)))).flatten }

/-- `ServerGUI.refreshAppsAndContainers` (server_mode.go lines 2085-2103):
install the freshly discovered apps; on the container-select screen,
rebuild the flattened list and clamp the selection index back into range
(last index, or 0 when the list is empty). -/
def refreshAppsAndContainers (s : ServerState)
    (discovered : Except String (List App)) : ServerState :=
  match discovered with
  | Except.error e => logError s ("Failed to refresh: " ++ e)
  | Except.ok apps =>
    let s1 : ServerState := { s with apps := apps }
    if s1.screen = ServerScreenContainerSelect then
      let s2 := buildContainerList s1
      if (s2.allContainers.length : Int) ≤ s2.selectedContainer then
        let sel : Int := (s2.allContainers.length : Int) - 1
        { s2 with selectedContainer := if sel < 0 then 0 else sel }
      else s2
    else s1

/-- `ServerGUI.viewContainerLogs` (server_mode.go lines 2404-2437): stop
any existing stream, log the announcement, mark streaming with a fresh
stop channel and launch the stream worker. -/
def viewContainerLogs (s : ServerState) (ci : ContainerInfo) :
    Option (ServerState × List ServerEffect) :=
  match stopLogStream s with
  | none => none
  | some s =>
    let s := logInfo s ("Streaming logs from " ++ ci.container.name ++ " [" ++
      ci.role ++ "]... (press Esc to stop)")
    some ({ s with streamingLogs := true,
                   streamingContainer := ci.container.name,
                   liveLogsStop := some true },
          [ServerEffect.streamWorker ci.container.name])

/-- `ServerGUI.viewAppLogs` (server_mode.go lines 2373-2402): log an
announcement and launch a worker that fetches each container's logs, or
log an error when the app has no containers at all. -/
def viewAppLogs (s : ServerState) (app : App) : ServerState × List ServerEffect :=
  let allContainers :=
    app.containers ++ (app.accessories.map (fun acc => acc.containers)).flatten
  if allContainers.length = 0 then
    (logError s "No containers to view logs from", [])
  else
    (logInfo s ("Fetching logs from " ++ toString allContainers.length ++
       " container(s)..."),
     [ServerEffect.worker "viewAppLogs"])

/-- `ServerGUI.showAppDetails` (server_mode.go lines 2596-2619). -/
def showAppDetails (s : ServerState) (app : App) : ServerState × List ServerEffect :=
  (logInfo s ("=== " ++ app.service ++ " Details ==="),
   [ServerEffect.worker "showAppDetails"])

/-- `ServerGUI.execShell` (server_mode.go lines 2655-2679). -/
def execShell (s : ServerState) (app : App) : ServerState × List ServerEffect :=
  match app.containers with
  | [] => (logError s "No containers available", [])
  | container :: _ =>
    let s := logInfo s ("Opening shell in " ++ container.name ++ "...")
    let s := logInfo s "Running: docker exec -it ... /bin/sh"
    (s, [ServerEffect.worker "execShell"])

/-- `ServerGUI.rebootApp` (server_mode.go lines 2620-2653). -/
def rebootApp (s : ServerState) (app : App) : ServerState × List ServerEffect :=
  let s := logInfo s ("Rebooting " ++ app.service ++ " (stop + start)...")
  (startRunning s "Reboot", [ServerEffect.worker "Reboot"])

/-- `ServerGUI.startApp` (server_mode.go lines 2563-2595). -/
def startApp (s : ServerState) (app : App) : ServerState × List ServerEffect :=
  if app.containers.length = 0 then
    (logError s "No containers to start", [])
  else
    let s := logInfo s ("Starting " ++ app.service ++ "...")
    (startRunning s "Start", [ServerEffect.worker "Start"])

/-- `ServerGUI.stopApp` (server_mode.go lines 2527-2561): a destructive
action — it opens a confirmation overlay whose accept continuation starts
the stop worker; nothing is launched at key time. -/
def stopApp (s : ServerState) (app : App) : ServerState × List ServerEffect :=
  if app.containers.length = 0 then
    (logError s "No containers to stop", [])
  else
    (showConfirm s "Confirm Stop"
      ("Stop all containers for " ++ app.service ++ "?") true false, [])

/-- `ServerGUI.restartApp` (server_mode.go lines 2495-2526). -/
def restartApp (s : ServerState) (app : App) : ServerState × List ServerEffect :=
  if app.containers.length = 0 then
    (logError s "No containers to restart", [])
  else
    let s := logInfo s ("Restarting " ++ app.service ++ "...")
    (startRunning s "Restart", [ServerEffect.worker "Restart"])

/-- `ServerGUI.removeStoppedContainers` (server_mode.go lines 2826-2866). -/
def removeStoppedContainers (s : ServerState) (app : App) :
    ServerState × List ServerEffect :=
  let s := logInfo s ("Removing stopped containers for " ++ app.service ++ "...")
  (startRunning s "Remove", [ServerEffect.worker "Remove"])

/-- `ServerGUI.showAppImages` (server_mode.go lines 2752-2779). -/
def showAppImages (s : ServerState) (app : App) : ServerState × List ServerEffect :=
  (logInfo s ("=== " ++ app.service ++ " Images ==="),
   [ServerEffect.worker "showAppImages"])

/-- `strings.LastIndex(image, ":")` as a character index; a `":"` is at
byte index 0 exactly when it is at character index 0, and slicing at the
character gives the same suffix as slicing at its byte index. -/
def lastIndexOfColon (l : List Char) : Option Nat :=
  match l.reverse.findIdx? (fun x => x = ':') with
  | some j => some (l.length - 1 - j)
  | none => none

/-- `docker.GetAppVersion` (discover.go lines 305-316): the image tag of
the first container, or the whole image reference when it has no tag. -/
def GetAppVersion (containers : List Container) : String :=
  match containers with
  | [] => "unknown"
  | c :: _ =>
    match lastIndexOfColon c.image.data with
    | some idx => if 0 < idx then ⟨c.image.data.drop (idx + 1)⟩ else c.image
    | none => c.image

/-- `ServerGUI.showAppVersion` (server_mode.go lines 2781-2798):
synchronous — logs the service, destination, version and first
container's image (and its `version` label when present); no worker. -/
def showAppVersion (s : ServerState) (app : App) : ServerState × List ServerEffect :=
  let s := logInfo s ("=== " ++ app.service ++ " Version ===")
  let version := GetAppVersion app.containers
  let s := logLine s ("  Service: " ++ app.service)
  let s := logLine s ("  Destination: " ++ app.destination)
  let s := logLine s ("  Version: " ++ version)
  match app.containers with
  | [] => (s, [])
  | c :: _ =>
    let s :=
      match c.labels.lookup "version" with
      | some v => logLine s ("  Label version: " ++ v)
      | none => s
    (logLine s ("  Image: " ++ c.image), [])

/-- `ServerGUI.showAppHealth` (server_mode.go lines 2800-2824). -/
def showAppHealth (s : ServerState) (app : App) : ServerState × List ServerEffect :=
  (logInfo s ("=== " ++ app.service ++ " Health ==="),
   [ServerEffect.worker "showAppHealth"])

/-- `ServerGUI.viewProxyLogs` (server_mode.go lines 2680-2724). -/
def viewProxyLogs (s : ServerState) : Option (ServerState × List ServerEffect) :=
  match stopLogStream s with
  | none => none
  | some s =>
    let s := logInfo s "Streaming kamal-proxy logs... (press Esc to stop)"
    some ({ s with streamingLogs := true,
                   streamingContainer := "kamal-proxy",
                   liveLogsStop := some true },
          [ServerEffect.streamWorker "kamal-proxy"])

/-- `ServerGUI.showProxyDetails` (server_mode.go lines 2726-2749). -/
def showProxyDetails (s : ServerState) : ServerState × List ServerEffect :=
  (logInfo s "=== kamal-proxy Details ===",
   [ServerEffect.worker "showProxyDetails"])

/-- `ServerGUI.proxyRestart` (server_mode.go lines 2889-2918). -/
def proxyRestart (s : ServerState) : ServerState × List ServerEffect :=
  let s := logInfo s "Restarting kamal-proxy..."
  (startRunning s "Proxy Restart", [ServerEffect.worker "Proxy Restart"])

/-- `ServerGUI.proxyReboot` (server_mode.go lines 2920-2954). -/
def proxyReboot (s : ServerState) : ServerState × List ServerEffect :=
  let s := logInfo s "Rebooting kamal-proxy (stop + start)..."
  (startRunning s "Proxy Reboot", [ServerEffect.worker "Proxy Reboot"])

/-- `ServerGUI.proxyStop` (server_mode.go lines 2956-2988): destructive,
guarded by a confirmation overlay. -/
def proxyStop (s : ServerState) : ServerState × List ServerEffect :=
  (showConfirm s "Confirm Proxy Stop" "Stop kamal-proxy?" true false, [])

/-- `ServerGUI.proxyStart` (server_mode.go lines 2990-3017). -/
def proxyStart (s : ServerState) : ServerState × List ServerEffect :=
  let s := logInfo s "Starting kamal-proxy..."
  (startRunning s "Proxy Start", [ServerEffect.worker "Proxy Start"])

/-- `ServerGUI.executeAppMenuAction` (server_mode.go lines 2290-2319). -/
def executeAppMenuAction (s : ServerState) : ServerState × List ServerEffect :=
  match s.apps.get? s.selectedApp with
  | none => (s, [])
  | some app =>
    if s.selectedItem = 0 then
      (buildContainerList { s with screen := ServerScreenContainerSelect,
                                   selectedContainer := 0 }, [])
    else if s.selectedItem = 1 then viewAppLogs s app
    else if s.selectedItem = 2 then showAppDetails s app
    else if s.selectedItem = 3 then
      ({ s with screen := ServerScreenActionsMenu, selectedItem := 0 }, [])
    else if s.selectedItem = 4 then
      ({ s with screen := ServerScreenProxyMenu, selectedItem := 0 }, [])
    else if s.selectedItem = 5 then execShell s app
    else if s.selectedItem = 6 then
      ({ s with screen := ServerScreenApps, selectedItem := 0 }, [])
    else (s, [])

/-- `ServerGUI.executeActionsMenuAction` (server_mode.go lines 2321-2349). -/
def executeActionsMenuAction (s : ServerState) : ServerState × List ServerEffect :=
  match s.apps.get? s.selectedApp with
  | none => (s, [])
  | some app =>
    if s.selectedItem = 0 then rebootApp s app
    else if s.selectedItem = 1 then startApp s app
    else if s.selectedItem = 2 then stopApp s app
    else if s.selectedItem = 3 then restartApp s app
    else if s.selectedItem = 4 then removeStoppedContainers s app
    else if s.selectedItem = 5 then showAppImages s app
    else if s.selectedItem = 6 then showAppVersion s app
    else if s.selectedItem = 7 then showAppHealth s app
    else if s.selectedItem = 8 then
      ({ s with screen := ServerScreenAppMenu, selectedItem := 0 }, [])
    else (s, [])

/-- `ServerGUI.executeProxyMenuAction` (server_mode.go lines 2351-2371). -/
def executeProxyMenuAction (s : ServerState) :
    Option (ServerState × List ServerEffect) :=
  if s.selectedItem = 0 then viewProxyLogs s
  else if s.selectedItem = 1 then some (showProxyDetails s)
  else if s.selectedItem = 2 then some (proxyRestart s)
  else if s.selectedItem = 3 then some (proxyReboot s)
  else if s.selectedItem = 4 then some (proxyStop s)
  else if s.selectedItem = 5 then some (proxyStart s)
  else if s.selectedItem = 6 then
    some ({ s with screen := ServerScreenAppMenu, selectedItem := 0 }, [])
  else some (s, [])

/-- `ServerGUI.keyEnter` (server_mode.go lines 2152-2175).  Unlike
`GUI.keyEnter`, there is no `running` guard anywhere on this path: the
selected action is dispatched regardless of whether an operation is
already running. -/
def keyEnter (s : ServerState) : Option (ServerState × List ServerEffect) :=
  if s.screen = ServerScreenApps then
    some (if 0 < s.apps.length then
            { s with screen := ServerScreenAppMenu, selectedItem := 0 }
          else s, [])
  else if s.screen = ServerScreenAppMenu then some (executeAppMenuAction s)
  else if s.screen = ServerScreenActionsMenu then
    some (executeActionsMenuAction s)
  else if s.screen = ServerScreenProxyMenu then executeProxyMenuAction s
  else if s.screen = ServerScreenContainerSelect then
    if s.selectedContainer < (s.allContainers.length : Int) then
      match s.allContainers.get? s.selectedContainer.toNat with
      | some ci => viewContainerLogs s ci
      | none => some (s, [])
    else some (s, [])
  else if s.screen = ServerScreenHelp then
    some ({ s with screen := ServerScreenApps }, [])
  else some (s, [])

end ServerGUI

/-- A server supervisor with an active stream and a fresh open stop
channel. -/
def streamingServerState : ServerState :=
  { streamingLogs := true, liveLogsStop := some true }

/-- A root-GUI supervisor with active live logs and a fresh open stop
channel. -/
def streamingGUIState : GUIState :=
  { liveLogsActive := true, liveLogsStop := some true }

/-! ## C6: input while an operation is running -/

/-- A running container used by the concrete session states below. -/
def demoContainer : Container :=
  { id := "c1", name := "web-1", state := "running",
    labels := [("service", "web")] }

/-- A discovered app with one primary container. -/
def demoApp : App :=
  { service := "web", destination := "production",
    containers := [demoContainer] }

/-- A server-mode session on the actions submenu with Restart selected,
while an operation labelled `Deploy` is still running. -/
def busyServerState : ServerState :=
  { screen := ServerScreenActionsMenu, selectedApp := 0, selectedItem := 3,
    apps := [demoApp], running := true, runningCmd := "Deploy" }

/-- A root-GUI session on the deploy submenu while a command runs. -/
def busyGUIState : GUIState := { screen := ScreenDeploy, running := true }

/-- A session whose open overlay still has the default No selection. -/
def confirmGUIState : GUIState :=
  { prevScreen := ScreenApp,
    confirm := some { title := "Confirm Stop", message := "Stop?",
                      hasOnYes := true, hasOnNo := false, selected := 1 } }

/-- A container-select session whose index 5 is stale after a refresh
shrinks the list to one entry. -/
def staleSelectState : ServerState :=
  { screen := ServerScreenContainerSelect, selectedContainer := 5,
    allContainers := [{ container := demoContainer, role := "web" }],
    apps := [] }

/-! ## C1: longest-proper-prefix ownership heuristic -/

theorem detectBaseAppAux_spec (service : String) (parts allServices : List String)
    (i : Nat) :
    (∃ k, 1 ≤ k ∧ k ≤ i ∧
      allServices.contains (joinWith "-" (parts.take k)) = true ∧
      (∀ j, k < j → j ≤ i →
        allServices.contains (joinWith "-" (parts.take j)) = false) ∧
      detectBaseAppAux service parts allServices i =
        (joinWith "-" (parts.take k), joinWith "-" (parts.drop k))) ∨
    ((∀ j, 1 ≤ j → j ≤ i →
        allServices.contains (joinWith "-" (parts.take j)) = false) ∧
      detectBaseAppAux service parts allServices i = (service, "")) := by
  induction i with
  | zero =>
    right
    exact ⟨fun j h1 h2 => absurd (Nat.le_trans h1 h2) (by omega), rfl⟩
  | succ i ih =>
    by_cases h : allServices.contains (joinWith "-" (parts.take (i + 1))) = true
    · left
      refine ⟨i + 1, by omega, le_refl _, h, fun j hj1 hj2 => absurd hj1 (by omega), ?_⟩
      simp only [detectBaseAppAux, h, if_true]
    · have h' : allServices.contains (joinWith "-" (parts.take (i + 1))) = false :=
        Bool.eq_false_iff.mpr h
      have hstep : detectBaseAppAux service parts allServices (i + 1) =
          detectBaseAppAux service parts allServices i := by
        simp only [detectBaseAppAux, h', Bool.false_eq_true, if_false]
      rcases ih with ⟨k, hk1, hk2, hkmem, hkmax, hkval⟩ | ⟨hnone, hval⟩
      · left
        refine ⟨k, hk1, by omega, hkmem, ?_, hstep ▸ hkval⟩
        intro j hj1 hj2
        rcases Nat.lt_or_ge j (i + 1) with hj | hj
        · exact hkmax j hj1 (by omega)
        · have : j = i + 1 := by omega
          exact this ▸ h'
      · right
        refine ⟨?_, hstep ▸ hval⟩
        intro j hj1 hj2
        rcases Nat.lt_or_ge j (i + 1) with hj | hj
        · exact hnone j hj1 (by omega)
        · have : j = i + 1 := by omega
          exact this ▸ h'

/-- C1: `detectBaseApp` splits the name on `"-"` and tests proper prefixes
from longest to shortest; the first prefix that is a member of the service
set becomes the base with the hyphen-joined remainder as accessory name, and
when no proper prefix is a member the service's own name is the base with an
empty accessory name.  In particular `a-b-c` over `{a, a-b, a-b-c}` resolves
to base `a-b` and accessory `c`. -/
theorem detectBaseApp_longest_proper_prefix_c1 :
    (∀ (service : String) (allServices : List String),
      let parts := splitString service '-'
      (∃ k, 1 ≤ k ∧ k < parts.length ∧
        allServices.contains (joinWith "-" (parts.take k)) = true ∧
        (∀ j, k < j → j < parts.length →
          allServices.contains (joinWith "-" (parts.take j)) = false) ∧
        detectBaseApp service allServices =
          (joinWith "-" (parts.take k),
           joinWith "-" (parts.drop k))) ∨
      ((∀ j, 1 ≤ j → j < parts.length →
          allServices.contains (joinWith "-" (parts.take j)) = false) ∧
        detectBaseApp service allServices = (service, ""))) ∧
    detectBaseApp "a-b-c" ["a", "a-b", "a-b-c"] = ("a-b", "c") := by
  constructor
  · intro service allServices parts
    rcases detectBaseAppAux_spec service parts allServices (parts.length - 1) with
      ⟨k, hk1, hk2, hkmem, hkmax, hkval⟩ | ⟨hnone, hval⟩
    · left
      refine ⟨k, hk1, by omega, hkmem, ?_, hkval⟩
      intro j hj1 hj2
      exact hkmax j hj1 (by omega)
    · right
      refine ⟨?_, hval⟩
      intro j hj1 hj2
      exact hnone j hj1 (by omega)
  · decide

theorem mem_join_addAccessory (role : String) (c : Container) :
    ∀ (accs : List Accessory) (x : Container),
      x ∈ ((addAccessory accs role c).map (fun acc => acc.containers)).flatten →
      x ∈ (accs.map (fun acc => acc.containers)).flatten ∨ x = c := by
  intro accs
  induction accs with
  | nil =>
    intro x hx
    simp only [addAccessory, List.map_cons, List.map_nil, List.flatten,
      List.append_nil] at hx
    exact Or.inr (List.mem_singleton.mp hx)
  | cons acc rest ih =>
    intro x hx
    simp only [addAccessory] at hx
    split at hx
    · simp only [List.map_cons, List.flatten_cons, List.mem_append] at hx ⊢
      rcases hx with (h | h) | hx
      · exact Or.inl (Or.inl h)
      · exact Or.inr (List.mem_singleton.mp h)
      · exact Or.inl (Or.inr hx)
    · simp only [List.map_cons, List.flatten_cons, List.mem_append] at hx ⊢
      rcases hx with hx | hx
      · exact Or.inl (Or.inl hx)
      · rcases ih x hx with h | h
        · exact Or.inl (Or.inr h)
        · exact Or.inr h

theorem appRecords_addToApp (app : App) (role : String) (c x : Container)
    (hx : x ∈ appRecords (addToApp app role c)) :
    x ∈ appRecords app ∨ x = c := by
  unfold addToApp at hx
  split at hx
  · simp only [appRecords, List.append_assoc, List.mem_append] at hx ⊢
    rcases hx with hx | hx | hx
    · exact Or.inl (Or.inl hx)
    · exact Or.inr (List.mem_singleton.mp hx)
    · exact Or.inl (Or.inr hx)
  · simp only [appRecords, List.mem_append] at hx ⊢
    rcases hx with hx | hx
    · exact Or.inl (Or.inl hx)
    · rcases mem_join_addAccessory role c app.accessories x hx with h | h
      · exact Or.inl (Or.inr h)
      · exact Or.inr h

theorem addToApp_service (app : App) (role : String) (c : Container) :
    (addToApp app role c).service = app.service := by
  unfold addToApp; split <;> rfl

theorem addToApp_destination (app : App) (role : String) (c : Container) :
    (addToApp app role c).destination = app.destination := by
  unfold addToApp; split <;> rfl

theorem insertGrouped_invariant (allServices : List String)
    (baseApp destination role : String) (c : Container)
    (hc : getLabel c.labels "service" ≠ "" ∧
      (detectBaseApp (getLabel c.labels "service") allServices).1 = baseApp ∧
      effectiveDestination c = destination) :
    ∀ (apps : List App),
      (∀ app ∈ apps, ∀ x ∈ appRecords app, recordMatchesApp allServices app x) →
      ∀ app ∈ insertGrouped apps baseApp destination role c,
        ∀ x ∈ appRecords app, recordMatchesApp allServices app x := by
  intro apps
  induction apps with
  | nil =>
    intro _ app happ x hx
    simp only [insertGrouped, List.mem_singleton] at happ
    subst happ
    rcases appRecords_addToApp _ _ _ _ hx with h | rfl
    · exact absurd h (by simp [appRecords])
    · exact ⟨hc.1, by rw [addToApp_service]; exact hc.2.1,
        by rw [addToApp_destination]; exact hc.2.2⟩
  | cons app₀ rest ih =>
    intro happs app happ x hx
    simp only [insertGrouped] at happ
    split at happ
    · rename_i heq
      rcases List.mem_cons.mp happ with rfl | hmem
      · rcases appRecords_addToApp _ _ _ _ hx with h | rfl
        · have hrec := happs app₀ (List.mem_cons_self _ _) x h
          exact ⟨hrec.1, by rw [addToApp_service]; exact hrec.2.1,
            by rw [addToApp_destination]; exact hrec.2.2⟩
        · exact ⟨hc.1, by rw [addToApp_service, heq.1]; exact hc.2.1,
            by rw [addToApp_destination, heq.2]; exact hc.2.2⟩
      · exact happs app (List.mem_cons_of_mem _ hmem) x hx
    · rcases List.mem_cons.mp happ with rfl | hmem
      · exact happs app (List.mem_cons_self _ _) x hx
      · exact ih (fun a ha => happs a (List.mem_cons_of_mem _ ha)) app hmem x hx

theorem groupStep_invariant (allServices : List String) (c : Container)
    (apps : List App)
    (happs : ∀ app ∈ apps, ∀ x ∈ appRecords app, recordMatchesApp allServices app x) :
    ∀ app ∈ groupStep allServices apps c,
      ∀ x ∈ appRecords app, recordMatchesApp allServices app x := by
  unfold groupStep
  by_cases h : getLabel c.labels "service" = ""
  · simp only [h, if_true, reduceIte]
    exact happs
  · simp only [if_neg h]
    exact insertGrouped_invariant allServices _ _ _ c ⟨h, rfl, rfl⟩ apps happs

theorem groupContainers_fold_invariant (allServices : List String) :
    ∀ (cs : List Container) (apps : List App),
      (∀ app ∈ apps, ∀ x ∈ appRecords app, recordMatchesApp allServices app x) →
      ∀ app ∈ cs.foldl (groupStep allServices) apps,
        ∀ x ∈ appRecords app, recordMatchesApp allServices app x := by
  intro cs
  induction cs with
  | nil => intro apps happs; simpa using happs
  | cons c rest ih =>
    intro apps happs
    simp only [List.foldl_cons]
    exact ih _ (groupStep_invariant allServices c apps happs)

/-- C2 counterexample: with containers `{service=myapp}` and
`{service=myapp-web}`, the record with label `myapp-web` becomes a primary
record of the application whose service name is `myapp`, so it does not
carry that application's service label. -/
theorem groupContainers_labels_c2_counterexample :
    ¬ (∀ app ∈ groupContainers [cexWeb, cexAccessoryWeb],
        ∀ x ∈ app.containers,
          getLabel x.labels "service" = app.service ∧
          effectiveDestination x = app.destination) := by
  decide

/-- C2 (amended): every record grouped under an Application — primary or
inside an Accessory — carries a non-empty service label whose *detected
base* (under the ownership heuristic over all observed service names) is
that Application's service name, and carries that Application's destination
label, taking the destination as `"production"` when absent.  (The claim's
stronger reading — that the record's service label *equals* the
Application's service name — fails for accessory-suffixed labels, see the
counterexample.) -/
theorem groupContainers_labels_c2 (containers : List Container) (app : App)
    (happ : app ∈ groupContainers containers) :
    ∀ x ∈ appRecords app, recordMatchesApp (allServicesOf containers) app x := by
  exact groupContainers_fold_invariant (allServicesOf containers) containers []
    (by intro a ha; simp at ha) app happ

/-- C2 witness: the amended invariant evaluated on a singleton input. -/
theorem groupContainers_labels_c2_witness :
    recordMatchesApp (allServicesOf [cexWeb])
      { service := "myapp", destination := "production",
        containers := [cexWeb], accessories := [], proxyStatus := "" } cexWeb := by
  exact groupContainers_labels_c2 [cexWeb]
    { service := "myapp", destination := "production",
      containers := [cexWeb], accessories := [], proxyStatus := "" }
    (by decide) cexWeb (by decide)

theorem parseContainers_foldl_eq (decode : String → Option RawContainer) :
    ∀ (lines : List String) (acc : List Container),
      lines.foldl (fun containers line =>
        if line = "" then containers
        else
          match decode line with
          | none => containers
          | some c => containers ++ [mkContainer c]) acc
        = acc ++ lines.filterMap (parseLine decode) := by
  intro lines
  induction lines with
  | nil => intro acc; simp
  | cons line rest ih =>
    intro acc
    simp only [List.foldl_cons, List.filterMap_cons]
    by_cases h : line = ""
    · simp only [h, if_pos rfl, parseLine, reduceIte]
      exact ih acc
    · simp only [if_neg h, parseLine, reduceIte]
      cases hd : decode line with
      | none => simpa [hd] using ih acc
      | some c => simpa [hd] using ih (acc ++ [mkContainer c])

theorem length_filterMap_parseLine (decode : String → Option RawContainer) :
    ∀ (lines : List String),
      (lines.filterMap (parseLine decode)).length
        = (lines.filter (fun line => line != "" && (decode line).isSome)).length := by
  intro lines
  induction lines with
  | nil => rfl
  | cons line rest ih =>
    simp only [List.filterMap_cons, List.filter_cons]
    by_cases h : line = ""
    · simp [parseLine, h, ih]
    · cases hd : decode line with
      | none => simp [parseLine, h, hd, ih]
      | some c => simp [parseLine, h, hd, ih]

/-- C9: `parseContainers` parses each line independently — its result is
exactly the per-line `filterMap` of the decode function over the split
lines, so a line that fails to decode is dropped without affecting any
other line; the number of parsed records equals the number of non-empty
lines that decode successfully; and an output with no well-formed line
yields the empty list (not an error: the function is total into
`List Container`). -/
theorem parseContainers_per_line_c9 (decode : String → Option RawContainer)
    (output : String) :
    parseContainers decode output
      = (splitString (trimString output) '\n').filterMap (parseLine decode) ∧
    (parseContainers decode output).length
      = ((splitString (trimString output) '\n').filter
          (fun line => line != "" && (decode line).isSome)).length ∧
    ((∀ line ∈ splitString (trimString output) '\n',
        line = "" ∨ decode line = none) →
      parseContainers decode output = []) := by
  have h1 : parseContainers decode output
      = (splitString (trimString output) '\n').filterMap (parseLine decode) := by
    unfold parseContainers
    rw [parseContainers_foldl_eq decode]
    simp
  refine ⟨h1, ?_, ?_⟩
  · rw [h1]
    exact length_filterMap_parseLine decode _
  · intro hall
    rw [h1]
    apply List.filterMap_eq_nil_iff.mpr
    intro line hline
    rcases hall line hline with h | h
    · simp [parseLine, h]
    · simp [parseLine, h]

/-- C9 witness: with a decoder that rejects every line, a two-line output
parses to the empty list rather than an error. -/
theorem parseContainers_per_line_c9_witness :
    parseContainers (fun _ => none) "bad1\nbad2" = [] :=
  (parseContainers_per_line_c9 (fun _ => none) "bad1\nbad2").2.2 (by decide)

/-! ## C3: non-zero exit versus error -/

/-- C3 counterexample: the blocking ssh executor `Client.Run` *does*
return a non-zero process exit as an error — with remote exit status 1
and empty stderr it returns `Except.error "exit status 1"` instead of a
successful result carrying the exit code. -/
theorem ClientRun_nonzero_exit_c3_counterexample :
    ClientRun "some output" "" (some (CmdError.exitError 1))
      = Except.error "exit status 1" := by
  rfl

/-- C3 (amended): for the kamal executor `RunKamal`, a non-zero exit of
the process is not an error — the call returns a successful `Result`
carrying stdout, stderr and the exit code, exit 0 yields exit code 0, and
only launch/transport failures produce an error return.  The ssh executor
`Client.Run`, by contrast, returns an error for *every* non-nil process
error, including the exit-status errors by which `ssh` conveys a non-zero
remote exit. -/
theorem RunKamal_nonzero_exit_c3 :
    (∀ (stdoutBuf stderrBuf : String) (code : Int),
      RunKamal stdoutBuf stderrBuf (some (CmdError.exitError code))
        = Except.ok { Stdout := stdoutBuf, Stderr := stderrBuf, ExitCode := code }) ∧
    (∀ (stdoutBuf stderrBuf : String),
      RunKamal stdoutBuf stderrBuf none
        = Except.ok { Stdout := stdoutBuf, Stderr := stderrBuf, ExitCode := 0 }) ∧
    (∀ (stdoutBuf stderrBuf msg : String),
      RunKamal stdoutBuf stderrBuf (some (CmdError.launchError msg))
        = Except.error msg) ∧
    (∀ (stdoutBuf stderrBuf : String) (e : CmdError),
      ∃ msg, ClientRun stdoutBuf stderrBuf (some e) = Except.error msg) := by
  refine ⟨fun _ _ _ => rfl, fun _ _ => rfl, fun _ _ _ => rfl, ?_⟩
  intro stdoutBuf stderrBuf e
  unfold ClientRun
  by_cases h : stderrBuf != ""
  · exact ⟨cmdErrorText e ++ ": " ++ stderrBuf, by simp [h]⟩
  · exact ⟨cmdErrorText e, by simp at h; simp [h]⟩

/-! ## C10: the --destination flag -/

theorem mem_appendIf (x : String) (cond : Bool) (args block : List String) :
    x ∈ appendIf cond args block ↔ x ∈ args ∨ (cond = true ∧ x ∈ block) := by
  unfold appendIf
  cases cond <;> simp

/-- C10: `buildGlobalArgs` emits the `--destination` flag iff the
`Destination` field is non-empty and differs from `"production"` (stated
for options whose other string fields do not themselves equal the literal
`"--destination"`, so that flag occurrence is unambiguous); `RunOpts` sets
`Destination` to the destination's name exactly when that name differs
from `"production"`; hence a command built for the production destination
carries no `--destination` argument. -/
theorem buildGlobalArgs_destination_c10 :
    (∀ opts : RunOptions,
      opts.ConfigFile ≠ "--destination" →
      opts.Hosts ≠ "--destination" →
      opts.Roles ≠ "--destination" →
      opts.Version ≠ "--destination" →
      ("--destination" ∈ buildGlobalArgs opts ↔
        opts.Destination ≠ "" ∧ opts.Destination ≠ "production")) ∧
    (∀ (cwd : String) (d : DeployDestination),
      (RunOpts cwd (some d)).Destination
        = if d.Name = "production" then "" else d.Name) ∧
    (∀ (cwd : String) (d : DeployDestination),
      d.Name = "production" →
      d.ConfigPath ≠ "--destination" →
      "--destination" ∉ buildGlobalArgs (RunOpts cwd (some d))) := by
  have hmain : ∀ opts : RunOptions,
      opts.ConfigFile ≠ "--destination" →
      opts.Hosts ≠ "--destination" →
      opts.Roles ≠ "--destination" →
      opts.Version ≠ "--destination" →
      ("--destination" ∈ buildGlobalArgs opts ↔
        opts.Destination ≠ "" ∧ opts.Destination ≠ "production") := by
    intro opts h1 h2 h3 h4
    simp only [buildGlobalArgs, mem_appendIf, List.mem_cons, List.not_mem_nil,
      List.mem_singleton]
    constructor
    · intro h
      rcases h with
        ((((((((h0 | ⟨_, hm⟩) | ⟨hc, _⟩) | ⟨_, hm⟩) | ⟨_, hm⟩) | ⟨_, hm⟩) |
          ⟨_, hm⟩) | ⟨_, hm⟩) | ⟨_, hm⟩) | ⟨_, hm⟩
      · exact h0.elim
      · rcases hm with he | he | he
        · exact absurd he (by decide)
        · exact absurd he.symm h1
        · exact he.elim
      · simp only [Bool.and_eq_true, bne_iff_ne, ne_eq] at hc
        exact hc
      · rcases hm with he | he
        · exact absurd he (by decide)
        · exact he.elim
      · rcases hm with he | he | he
        · exact absurd he (by decide)
        · exact absurd he.symm h2
        · exact he.elim
      · rcases hm with he | he | he
        · exact absurd he (by decide)
        · exact absurd he.symm h3
        · exact he.elim
      · rcases hm with he | he | he
        · exact absurd he (by decide)
        · exact absurd he.symm h4
        · exact he.elim
      · rcases hm with he | he
        · exact absurd he (by decide)
        · exact he.elim
      · rcases hm with he | he
        · exact absurd he (by decide)
        · exact he.elim
      · rcases hm with he | he
        · exact absurd he (by decide)
        · exact he.elim
    · intro hd
      refine Or.inl (Or.inl (Or.inl (Or.inl (Or.inl (Or.inl (Or.inl
        (Or.inr ⟨?_, Or.inl trivial⟩)))))))
      simp only [Bool.and_eq_true, bne_iff_ne, ne_eq]
      exact hd
  have hopts : ∀ (cwd : String) (d : DeployDestination),
      (RunOpts cwd (some d)).Destination
        = if d.Name = "production" then "" else d.Name := by
    intro cwd d
    unfold RunOpts
    by_cases h : d.Name = "production"
    · simp [h]
    · simp [h]
  refine ⟨hmain, hopts, ?_⟩
  intro cwd d hprod hcfg
  have hdest : (RunOpts cwd (some d)).Destination = "" := by
    rw [hopts]; simp [hprod]
  have hrest : (RunOpts cwd (some d)).Hosts = "" ∧
      (RunOpts cwd (some d)).Roles = "" ∧
      (RunOpts cwd (some d)).Version = "" ∧
      (RunOpts cwd (some d)).ConfigFile = d.ConfigPath := by
    unfold RunOpts
    by_cases h : d.Name = "production" <;> simp [h]
  intro hmem
  have := (hmain (RunOpts cwd (some d))
    (by rw [hrest.2.2.2]; exact hcfg)
    (by rw [hrest.1]; intro h; exact absurd h (by decide))
    (by rw [hrest.2.1]; intro h; exact absurd h (by decide))
    (by rw [hrest.2.2.1]; intro h; exact absurd h (by decide))).mp hmem
  exact this.1 hdest

/-- C10 witness: a command built for the production destination carries no
`--destination` argument. -/
theorem buildGlobalArgs_destination_c10_witness :
    "--destination" ∉ buildGlobalArgs (RunOpts "/app"
      (some { Name := "production", ConfigPath := "config/deploy.yml",
              Service := "web" })) :=
  buildGlobalArgs_destination_c10.2.2 "/app"
    { Name := "production", ConfigPath := "config/deploy.yml", Service := "web" }
    rfl (by decide)

theorem appendLogStep_eq_lastN (cap : Nat) (render : String → String)
    (buf lines : List String) :
    appendLogStep cap render buf lines = lastN cap (buf ++ lines.map render) := by
  show (if cap < (buf ++ lines.map render).length then
      (buf ++ lines.map render).drop ((buf ++ lines.map render).length - cap)
    else (buf ++ lines.map render))
    = lastN cap (buf ++ lines.map render)
  unfold lastN
  split
  · rfl
  · rename_i h
    have h0 : (buf ++ lines.map render).length - cap = 0 := by omega
    rw [h0, List.drop_zero]

theorem lastN_append_lastN (cap : Nat) (x y : List String) :
    lastN cap (lastN cap x ++ y) = lastN cap (x ++ y) := by
  unfold lastN
  have hle : x.length - cap ≤ x.length := Nat.sub_le _ _
  rw [← List.drop_append_of_le_length hle, List.drop_drop]
  simp only [List.length_drop, List.length_append]
  congr 1
  omega

theorem lastN_idem_of_le (cap : Nat) (l : List String) (h : l.length ≤ cap) :
    lastN cap l = l := by
  unfold lastN
  have h0 : l.length - cap = 0 := by omega
  rw [h0, List.drop_zero]

theorem foldl_appendLogStep (cap : Nat) (render : String → String) :
    ∀ (batches : List (List String)) (acc : List String),
      batches.foldl (appendLogStep cap render) (lastN cap acc)
        = lastN cap (acc ++ (batches.flatten).map render) := by
  intro batches
  induction batches with
  | nil => intro acc; simp [lastN]
  | cons b rest ih =>
    intro acc
    simp only [List.foldl_cons]
    rw [appendLogStep_eq_lastN, lastN_append_lastN, ih (acc ++ b.map render)]
    simp [List.append_assoc]

/-- C4: starting from any valid buffer content (at most `cap` entries, the
caps being `1000` for the server-mode buffer and `3000 = logBufLive` for
the root GUI buffer) and appending any sequence of line batches, the
buffer holds at most `cap` entries; and once more than `cap` lines have
been appended in total, it holds exactly the `cap` most recent appended
lines, in emission order, each one the rendering (timestamp stamping) of
an appended line. -/
theorem appendLog_capped_c4 (cap : Nat) (render : String → String)
    (start : List String) (batches : List (List String))
    (_hcap : cap = serverLogCap ∨ cap = logBufLive)
    (hstart : start.length ≤ cap) :
    (batches.foldl (appendLogStep cap render) start).length ≤ cap ∧
    (cap < (batches.flatten).length →
      batches.foldl (appendLogStep cap render) start
        = ((batches.flatten).map render).drop ((batches.flatten).length - cap) ∧
      (batches.foldl (appendLogStep cap render) start).length = cap ∧
      ∀ x ∈ batches.foldl (appendLogStep cap render) start,
        ∃ line ∈ batches.flatten, x = render line) := by
  have hfold : batches.foldl (appendLogStep cap render) start
      = lastN cap (start ++ (batches.flatten).map render) := by
    conv_lhs => rw [← lastN_idem_of_le cap start hstart]
    rw [foldl_appendLogStep]
  constructor
  · rw [hfold]
    unfold lastN
    simp only [List.length_drop]
    omega
  · intro hgt
    have hdrop : lastN cap (start ++ (batches.flatten).map render)
        = ((batches.flatten).map render).drop ((batches.flatten).length - cap) := by
      unfold lastN
      rw [List.drop_append_eq_append_drop]
      have h1 : start.drop ((start ++ (batches.flatten).map render).length - cap)
          = [] := by
        apply List.drop_eq_nil_iff.mpr
        simp only [List.length_append, List.length_map]
        omega
      rw [h1, List.nil_append]
      congr 1
      simp only [List.length_append, List.length_map]
      omega
    refine ⟨hfold.trans hdrop, ?_, ?_⟩
    · rw [hfold.trans hdrop]
      simp only [List.length_drop, List.length_map]
      omega
    · intro x hx
      rw [hfold.trans hdrop] at hx
      have hx' : x ∈ ((batches.flatten).map render) := List.mem_of_mem_drop hx
      rcases List.mem_map.mp hx' with ⟨line, hline, heq⟩
      exact ⟨line, hline, heq.symm⟩

/-- C4 witness: appending 1001 lines to an empty server-mode buffer
(cap 1000) leaves exactly 1000 entries. -/
theorem appendLog_capped_c4_witness :
    ([List.replicate 1001 "x"].foldl
      (appendLogStep 1000 (timestampedLine "12:00:00")) []).length = 1000 :=
  ((appendLog_capped_c4 1000 (timestampedLine "12:00:00") []
    [List.replicate 1001 "x"] (Or.inl rfl) (by simp)).2
    (by simp only [List.flatten_cons, List.flatten_nil, List.append_nil,
      List.length_replicate]; omega)).2.1



/-! ## C5: cancel is idempotent and panic-free -/

/-- C5: calling the cancel operation twice — on either supervisor, whether
or not a stream is active — never panics (never double-closes the stop
channel) and leaves the supervisor idle; the second call is a no-op.  The
hypothesis is the invariant maintained by the start paths
(`viewContainerLogs`, `viewProxyLogs`, `startLiveLogs`): whenever the
streaming flag is set, the stop channel is a fresh open channel. -/
theorem cancel_twice_idempotent_c5 :
    (∀ s : ServerState, (s.streamingLogs = true → s.liveLogsStop = some true) →
      ∃ s₁, ServerGUI.stopLogStream s = some s₁ ∧
        ServerGUI.stopLogStream s₁ = some s₁ ∧ s₁.streamingLogs = false) ∧
    (∀ g : GUIState, (g.liveLogsActive = true → g.liveLogsStop = some true) →
      ∃ g₁, GUI.stopLiveLogs g = some g₁ ∧
        GUI.stopLiveLogs g₁ = some g₁ ∧ g₁.liveLogsActive = false) := by
  constructor
  · intro s h
    by_cases hs : s.streamingLogs = true
    · have hch := h hs
      refine ⟨{ s with liveLogsStop := none, streamingLogs := false },
        ?_, ?_, rfl⟩
      · unfold ServerGUI.stopLogStream
        rw [hs, hch]
        rfl
      · unfold ServerGUI.stopLogStream
        simp
    · have hs' : s.streamingLogs = false := by
        revert hs; cases s.streamingLogs <;> simp
      refine ⟨s, ?_, ?_, hs'⟩
      · unfold ServerGUI.stopLogStream
        rw [hs']
        rfl
      · unfold ServerGUI.stopLogStream
        rw [hs']
        rfl
  · intro g h
    by_cases hg : g.liveLogsActive = true
    · have hch := h hg
      refine ⟨{ g with liveLogsStop := some false, liveLogsActive := false },
        ?_, ?_, rfl⟩
      · unfold GUI.stopLiveLogs
        rw [hg, hch]
        rfl
      · unfold GUI.stopLiveLogs
        simp
    · have hg' : g.liveLogsActive = false := by
        revert hg; cases g.liveLogsActive <;> simp
      refine ⟨g, ?_, ?_, hg'⟩
      · unfold GUI.stopLiveLogs
        rw [hg']
        rfl
      · unfold GUI.stopLiveLogs
        rw [hg']
        rfl

/-- C5 witness: double cancel on concrete active supervisors. -/
theorem cancel_twice_idempotent_c5_witness :
    (∃ s₁, ServerGUI.stopLogStream streamingServerState = some s₁ ∧
      ServerGUI.stopLogStream s₁ = some s₁ ∧ s₁.streamingLogs = false) ∧
    (∃ g₁, GUI.stopLiveLogs streamingGUIState = some g₁ ∧
      GUI.stopLiveLogs g₁ = some g₁ ∧ g₁.liveLogsActive = false) :=
  ⟨cancel_twice_idempotent_c5.1 streamingServerState (fun _ => rfl),
   cancel_twice_idempotent_c5.2 streamingGUIState (fun _ => rfl)⟩

/-- C6 counterexample: in server mode, pressing enter on the Restart leaf
while an operation is running is *not* a no-op — `ServerGUI.keyEnter` has
no running guard, so it launches a new Restart worker and overwrites the
displayed command label. -/
theorem keyEnter_while_running_c6_counterexample :
    busyServerState.running = true ∧
    (ServerGUI.keyEnter busyServerState).map (fun p => p.2)
      = some [ServerEffect.worker "Restart"] ∧
    (ServerGUI.keyEnter busyServerState).map (fun p => p.1.runningCmd)
      = some "Restart" := by
  decide

/-- C6 (amended): only the root GUI's key handler rejects input while an
operation is running: with the running flag set, `GUI.keyEnter` leaves
the state unchanged and dispatches nothing, silently.  (Server mode's
`ServerGUI.keyEnter` has no such guard — see the counterexample.) -/
theorem keyEnter_silent_reject_c6 (s : GUIState) (h : s.running = true) :
    GUI.keyEnter s = (s, none) := by
  unfold GUI.keyEnter
  rw [h]
  rfl

/-- C6 witness: enter on a leaf screen of the running root GUI. -/
theorem keyEnter_silent_reject_c6_witness :
    GUI.keyEnter busyGUIState = (busyGUIState, none) :=
  keyEnter_silent_reject_c6 busyGUIState rfl

/-! ## C7: the confirmation overlay declines safely -/

/-- C7: a freshly opened ConfirmOverlay has the decline choice (No,
`selected = 1`) selected; confirming while decline is selected never
yields the accept event and closes the overlay back to the previous
screen; escape (`closeConfirm`) likewise destroys the overlay and
returns to the previous screen without invoking anything; the accept
event can only arise when the accept choice is selected and a stored
accept continuation exists; and the `runWithConfirm` opening path
remembers the current screen, so a default decline lands back on it. -/
theorem confirm_decline_safe_c7 :
    (∀ (s : GUIState) (title message : String) (hasOnYes hasOnNo : Bool),
      (GUI.showConfirm s title message hasOnYes hasOnNo).confirm
        = some { title := title, message := message, hasOnYes := hasOnYes,
                 hasOnNo := hasOnNo, selected := 1 }) ∧
    (∀ (s : GUIState) (c : ConfirmSt), s.confirm = some c → c.selected = 1 →
      (GUI.confirmEnter s).2 ≠ some ConfirmEvent.invokedYes ∧
      (GUI.confirmEnter s).1.confirm = none ∧
      (GUI.confirmEnter s).1.screen = s.prevScreen) ∧
    (∀ s : GUIState,
      (GUI.closeConfirm s).confirm = none ∧
      (GUI.closeConfirm s).screen = s.prevScreen) ∧
    (∀ (s : GUIState) (c : ConfirmSt), s.confirm = some c →
      (GUI.confirmEnter s).2 = some ConfirmEvent.invokedYes →
      c.selected = 0 ∧ c.hasOnYes = true) ∧
    (∀ (s : GUIState) (name message : String),
      (GUI.confirmEnter (GUI.runWithConfirm s name message)).1.screen = s.screen ∧
      (GUI.confirmEnter (GUI.runWithConfirm s name message)).2 = none) := by
  refine ⟨fun s title message hasOnYes hasOnNo => rfl, ?_, fun s => ⟨rfl, rfl⟩,
    ?_, fun s name message => ⟨rfl, rfl⟩⟩
  · intro s c hc hsel
    simp only [GUI.confirmEnter, hc, hsel, GUI.closeConfirm]
    by_cases hno : c.hasOnNo = true
    · simp [hno]
    · simp [hno]
  · intro s c hc hev
    simp only [GUI.confirmEnter, hc] at hev
    split at hev
    · rename_i h0
      simp only [Bool.and_eq_true, beq_iff_eq] at h0
      exact ⟨h0.1, h0.2⟩
    · split at hev
      · exact absurd hev (by simp)
      · exact absurd hev (by simp)

/-- C7 witness: declining the concrete overlay never yields the accept
event and lands back on the previous screen with the overlay gone. -/
theorem confirm_decline_safe_c7_witness :
    (GUI.confirmEnter confirmGUIState).2 ≠ some ConfirmEvent.invokedYes ∧
    (GUI.confirmEnter confirmGUIState).1.confirm = none ∧
    (GUI.confirmEnter confirmGUIState).1.screen = confirmGUIState.prevScreen :=
  confirm_decline_safe_c7.2.1 confirmGUIState
    { title := "Confirm Stop", message := "Stop?",
      hasOnYes := true, hasOnNo := false, selected := 1 } rfl rfl

/-! ## C8: the refresh clamps the container selection -/

theorem buildContainerList_fields (x : ServerState) :
    (ServerGUI.buildContainerList x).selectedContainer = x.selectedContainer ∧
    (ServerGUI.buildContainerList x).screen = x.screen := by
  unfold ServerGUI.buildContainerList
  split <;> exact ⟨rfl, rfl⟩

/-- C8: after a refresh on the container-select screen, writing `n` for
the rebuilt flattened list's length: a previously selected index `≥ n` is
set to the last valid index `n - 1` (to `0` when the list is empty), an
index still in range is kept, and the resulting index is never out of
bounds (it is non-negative, and `< n` whenever the list is non-empty). -/
theorem refresh_clamps_selection_c8 (s : ServerState) (apps : List App)
    (hscreen : s.screen = ServerScreenContainerSelect)
    (hsel : 0 ≤ s.selectedContainer) :
    (((ServerGUI.refreshAppsAndContainers s (Except.ok apps)).allContainers.length : Int)
        ≤ s.selectedContainer →
      0 < (ServerGUI.refreshAppsAndContainers s (Except.ok apps)).allContainers.length →
      (ServerGUI.refreshAppsAndContainers s (Except.ok apps)).selectedContainer
        = ((ServerGUI.refreshAppsAndContainers s (Except.ok apps)).allContainers.length : Int) - 1) ∧
    ((ServerGUI.refreshAppsAndContainers s (Except.ok apps)).allContainers.length = 0 →
      (ServerGUI.refreshAppsAndContainers s (Except.ok apps)).selectedContainer = 0) ∧
    (s.selectedContainer
        < ((ServerGUI.refreshAppsAndContainers s (Except.ok apps)).allContainers.length : Int) →
      (ServerGUI.refreshAppsAndContainers s (Except.ok apps)).selectedContainer
        = s.selectedContainer) ∧
    0 ≤ (ServerGUI.refreshAppsAndContainers s (Except.ok apps)).selectedContainer ∧
    (0 < (ServerGUI.refreshAppsAndContainers s (Except.ok apps)).allContainers.length →
      (ServerGUI.refreshAppsAndContainers s (Except.ok apps)).selectedContainer
        < ((ServerGUI.refreshAppsAndContainers s (Except.ok apps)).allContainers.length : Int)) := by
  have hbl := buildContainerList_fields ({ s with apps := apps } : ServerState)
  dsimp only at hbl
  have hall : (ServerGUI.refreshAppsAndContainers s (Except.ok apps)).allContainers
      = (ServerGUI.buildContainerList { s with apps := apps }).allContainers := by
    unfold ServerGUI.refreshAppsAndContainers
    dsimp only
    rw [if_pos hscreen]
    split
    · rfl
    · rfl
  have hselval : (ServerGUI.refreshAppsAndContainers s (Except.ok apps)).selectedContainer
      = (if ((ServerGUI.buildContainerList { s with apps := apps }).allContainers.length : Int)
            ≤ s.selectedContainer
         then (if ((ServerGUI.buildContainerList { s with apps := apps }).allContainers.length : Int) - 1 < 0
               then (0 : Int)
               else ((ServerGUI.buildContainerList { s with apps := apps }).allContainers.length : Int) - 1)
         else s.selectedContainer) := by
    unfold ServerGUI.refreshAppsAndContainers
    dsimp only
    rw [if_pos hscreen, hbl.1]
    split
    · rfl
    · exact hbl.1
  rw [hall, hselval]
  refine ⟨?_, ?_, ?_, ?_, ?_⟩ <;> intros <;> split_ifs <;> omega

/-- C8 witness: the clamped index of the concrete refreshed session is in
range. -/
theorem refresh_clamps_selection_c8_witness :
    0 ≤ (ServerGUI.refreshAppsAndContainers staleSelectState
      (Except.ok [])).selectedContainer :=
  (refresh_clamps_selection_c8 staleSelectState [] rfl (by decide)).2.2.2.1

end LazyKamal
